import Mathlib

/-!
Shallow embedding of the GPU-accounting core of WrapSlurm
(`wrapslurm/node_info.py` and the partition-resource helpers of
`wrapslurm/job_runner.py`).  Python strings are modelled as `List Char`;
the regex searches of the source are modelled as explicit left-to-right
scans whose per-position matchers follow the concrete patterns used in
the code; Python exceptions are modelled with `Option`/`Except`.
-/

namespace WrapSlurm

/-- Characters treated as whitespace by Python's `str.strip` and by `\S`. -/
def isPySpace (c : Char) : Bool :=
  c = ' ' || c = '\t' || c = '\n' || c = '\r' || c = '\x0b' || c = '\x0c'

/-- Python `s.split(sep)` for a one-character separator: splits at every
occurrence and keeps empty pieces; the empty string gives one empty piece. -/
def pySplit (sep : Char) : List Char → List (List Char)
  | [] => [[]]
  | c :: rest =>
    if c = sep then [] :: pySplit sep rest
    else
      match pySplit sep rest with
      | h :: t => (c :: h) :: t
      | [] => [[c]]

/-- Python `s.strip()`: removes leading and trailing whitespace. -/
def pyStrip (l : List Char) : List Char :=
  ((l.dropWhile isPySpace).reverse.dropWhile isPySpace).reverse

/-- `startsWith pat l` is true when `pat` occurs at the head of `l`. -/
def startsWith : List Char → List Char → Bool
  | [], _ => true
  | _ :: _, [] => false
  | p :: ps, c :: cs => p = c && startsWith ps cs

/-- `containsSeq pat l` is true when `pat` occurs contiguously anywhere in `l`. -/
def containsSeq (pat : List Char) : List Char → Bool
  | [] => startsWith pat []
  | c :: rest => startsWith pat (c :: rest) || containsSeq pat rest

/-- Numeric value of a decimal digit character. -/
def digitVal (c : Char) : Nat := c.toNat - '0'.toNat

/-- Value of a string of decimal digits. -/
def digitsToNat (l : List Char) : Nat := l.foldl (fun a c => a * 10 + digitVal c) 0

/-- Python `int()` on the unsigned decimal strings relevant here: a nonempty
all-digit string parses; any other input is modelled as raising. -/
def pyInt (l : List Char) : Option Nat :=
  if l.isEmpty then none
  else if l.all Char.isDigit then some (digitsToNat l) else none

/-- Python `str(i)` for a natural number. -/
def natToChars (n : Nat) : List Char := Nat.toDigits 10 n

/-- Python `s.zfill(width)` for digit strings: left-pad with `'0'`. -/
def pyZfill (width : Nat) (l : List Char) : List Char :=
  List.replicate (width - l.length) '0' ++ l

/-! ## Job-GPU-mapping reconciler (`node_info.get_job_gpu_mapping`) -/

/-- One job's GPU claim on one node: the `(job_id, gpu_type, gpu_count)`
triples that `get_job_gpu_mapping` appends to `job_mapping[node]`. -/
structure JobClaim where
  job_id : List Char
  gpu_type : List Char
  gpu_count : Nat
deriving DecidableEq, Repr

/-- The `job_mapping` dict: insertion-ordered association list from node
name to the claims appended for it. -/
abbrev JobMapping := List (List Char × List JobClaim)

/-- `job_mapping[node].append(c)`, creating `job_mapping[node] = []` first
when the key is absent (appended at the end, as Python dicts do). -/
def dictAppend : JobMapping → List Char → JobClaim → JobMapping
  | [], node, c => [(node, [c])]
  | (k, v) :: rest, node, c =>
    if k = node then (k, v ++ [c]) :: rest
    else (k, v) :: dictAppend rest node c

/-- Attempt of the regex `gpu:([a-zA-Z0-9]+):(\d+)` at the head of the
input; on success returns the two captures and the suffix after the match. -/
def matchTypedAt : List Char → Option ((List Char × Nat) × List Char)
  | 'g' :: 'p' :: 'u' :: ':' :: rest =>
    let ty := rest.takeWhile Char.isAlphanum
    match rest.dropWhile Char.isAlphanum with
    | ':' :: r3 =>
      let ds := r3.takeWhile Char.isDigit
      if ty.isEmpty || ds.isEmpty then none
      else some ((ty, digitsToNat ds), r3.dropWhile Char.isDigit)
    | _ => none
  | _ => none

/-- `re.search(r"gpu:([a-zA-Z0-9]+):(\d+)", s)`: captures of the leftmost
match. -/
def searchTyped : List Char → Option (List Char × Nat)
  | [] => none
  | c :: rest =>
    match matchTypedAt (c :: rest) with
    | some (r, _) => some r
    | none => searchTyped rest

/-- Attempt of the regex `gpu[:\x3d](\d+)` at the head of the input. -/
def matchUntypedAt : List Char → Option (Nat × List Char)
  | 'g' :: 'p' :: 'u' :: c :: r =>
    if c = ':' || c = '=' then
      let ds := r.takeWhile Char.isDigit
      if ds.isEmpty then none else some (digitsToNat ds, r.dropWhile Char.isDigit)
    else none
  | _ => none

/-- `re.search(r"gpu[:\x3d](\d+)", s)`: capture of the leftmost match. -/
def searchUntyped : List Char → Option Nat
  | [] => none
  | c :: rest =>
    match matchUntypedAt (c :: rest) with
    | some (n, _) => some n
    | none => searchUntyped rest

/-- The default GPU type label `"gpu"`. -/
def gpuWord : List Char := ['g', 'p', 'u']

/-- GRES parsing of `get_job_gpu_mapping` (node_info.py lines 192-206):
first the typed pattern via `re.search`, else the untyped pattern, else
`(0, "gpu")`.  Returns `(gpu_count, gpu_type)`. -/
def parseGres (gres : List Char) : Nat × List Char :=
  match searchTyped gres with
  | some (ty, cnt) => (cnt, ty)
  | none =>
    match searchUntyped gres with
    | some cnt => (cnt, gpuWord)
    | none => (0, gpuWord)

/-- `re.match(r'([a-zA-Z]+)\x5b([^\x5d]+)\x5d', node_list)`: an anchored
match of an alphabetic base name followed by a bracketed, nonempty,
bracket-free range specification (trailing text is ignored, as with
`re.match`).  Returns the two captures. -/
def matchNodeRange (l : List Char) : Option (List Char × List Char) :=
  let base := l.takeWhile Char.isAlpha
  if base.isEmpty then none
  else
    match l.dropWhile Char.isAlpha with
    | '[' :: r2 =>
      let spec := r2.takeWhile (fun c => c != ']')
      if spec.isEmpty then none
      else
        match r2.dropWhile (fun c => c != ']') with
        | ']' :: _ => some (base, spec)
        | _ => none
    | _ => none

/-- Expansion of one comma-piece of a bracketed range specification
(node_info.py lines 222-232): a hyphenated piece `start-end` yields
`base + str(i).zfill(len(start))` for `i` in `range(int(start), int(end)+1)`;
any other piece is appended literally after `base`.  `none` models the
`ValueError` of `int()` or of unpacking a `split('-')` that does not have
exactly two pieces. -/
def expandPart (base part : List Char) : Option (List (List Char)) :=
  if part.contains '-' then
    match pySplit '-' part with
    | [s, e] =>
      match pyInt s, pyInt e with
      | some a, some b =>
        some ((List.range' a (b + 1 - a)).map fun i => base ++ pyZfill s.length (natToChars i))
      | _, _ => none
    | _ => none
  else some [base ++ part]

/-- The loop over `range_part.split(',')`. -/
def expandParts (base : List Char) : List (List Char) → Option (List (List Char))
  | [] => some []
  | p :: rest => do
    let xs ← expandPart base p
    let ys ← expandParts base rest
    pure (xs ++ ys)

/-- Node-list expansion of `get_job_gpu_mapping` (node_info.py lines
214-235): bracketed expressions are expanded when the range regex matches
(and leave `nodes` empty when it does not); otherwise the expression is
split on commas into stripped literal names. -/
def parseNodes (node_list : List Char) : Option (List (List Char)) :=
  if node_list.contains '[' then
    match matchNodeRange node_list with
    | some (base, spec) => expandParts base (pySplit ',' spec)
    | none => some []
  else
    some ((pySplit ',' node_list).map pyStrip)

/-- The `for idx, node in enumerate(nodes)` loop (node_info.py lines
241-247): appends to each node, in listed order, a claim of
`base + (1 if idx < rem else 0)` GPUs. -/
def recordClaims (jid ty : List Char) (base rem : Nat) :
    JobMapping → Nat → List (List Char) → JobMapping
  | m, _, [] => m
  | m, idx, node :: rest =>
    recordClaims jid ty base rem
      (dictAppend m node ⟨jid, ty, base + if idx < rem then 1 else 0⟩) (idx + 1) rest

/-- GPU distribution of `get_job_gpu_mapping` (node_info.py lines 237-247):
`gpus_per_node = gpu_count // len(nodes) if nodes else gpu_count`,
`remainder = gpu_count % len(nodes) if nodes else 0`, then the
enumeration loop. -/
def distributeJob (m : JobMapping) (jid ty : List Char) (g : Nat)
    (nodes : List (List Char)) : JobMapping :=
  let per := if nodes.isEmpty then g else g / nodes.length
  let rem := if nodes.isEmpty then 0 else g % nodes.length
  recordClaims jid ty per rem m 0 nodes

/-- Processing of the parsed fields of one squeue line (job id, node list
and GRES already extracted and stripped). -/
def handleJob (m : JobMapping) (jid node_list gres : List Char) : Option JobMapping :=
  let pc := parseGres gres
  if pc.1 = 0 then some m
  else
    match parseNodes node_list with
    | some nodes => some (distributeJob m jid pc.2 pc.1 nodes)
    | none => none

/-- Processing of one line of the squeue output: blank lines and lines
with fewer than three pipe-separated fields are skipped. -/
def processLine (m : JobMapping) (line : List Char) : Option JobMapping :=
  if (pyStrip line).isEmpty then some m
  else
    let parts := pySplit '|' line
    if parts.length < 3 then some m
    else
      handleJob m (pyStrip (parts.getD 0 [])) (pyStrip (parts.getD 1 []))
        (pyStrip (parts.getD 2 []))

/-- The pure core of `get_job_gpu_mapping`: from the stripped text output
of the squeue command to the node-to-claims mapping. -/
def getJobGpuMappingPure (raw : List Char) : Option JobMapping :=
  let result := pyStrip raw
  if result.isEmpty then some []
  else (pySplit '\n' result).foldlM processLine []

/-! ## Generic regex-search machinery -/

/-- Negation of `isPySpace`, the character class `\S`. -/
def notSpace (c : Char) : Bool := !isPySpace c

/-- Left-to-right scan returning the first position where the
per-position matcher `f` succeeds: the semantics of `re.search`. -/
def scanFirst (f : List Char → Option α) : List Char → Option α
  | [] => f []
  | c :: rest =>
    match f (c :: rest) with
    | some a => some a
    | none => scanFirst f rest

/-- Attempt, at the head of the input, of a literal followed by a
one-or-more capture of characters satisfying `p`. -/
def matchCapAt (lit : List Char) (p : Char → Bool) (l : List Char) : Option (List Char) :=
  if startsWith lit l then
    let cap := (l.drop lit.length).takeWhile p
    if cap.isEmpty then none else some cap
  else none

/-- `re.search` of a literal followed by a `+` capture of class `p`. -/
def searchCap (lit : List Char) (p : Char → Bool) (l : List Char) : Option (List Char) :=
  scanFirst (matchCapAt lit p) l

/-- Attempt, at the head of the input, of a literal followed by a
zero-or-more capture of characters satisfying `p`. -/
def matchCapStarAt (lit : List Char) (p : Char → Bool) (l : List Char) : Option (List Char) :=
  if startsWith lit l then some ((l.drop lit.length).takeWhile p) else none

/-- `re.search` of a literal followed by a `*` capture of class `p`. -/
def searchCapStar (lit : List Char) (p : Char → Bool) (l : List Char) : Option (List Char) :=
  scanFirst (matchCapStarAt lit p) l

/-- `re.findall` semantics: scan left to right, emit each non-overlapping
match of `f` and continue after it.  The matchers used here always
consume at least one character on success, so a fuel of the input length
plus one never runs out. -/
def findAllFuel (f : List Char → Option (α × List Char)) : Nat → List Char → List α
  | 0, _ => []
  | fuel + 1, l =>
    match f l with
    | some (a, r) => a :: findAllFuel f fuel r
    | none =>
      match l with
      | [] => []
      | _ :: rest => findAllFuel f fuel rest

/-- `re.findall(r"gpu:([a-zA-Z0-9]+):(\d+)", l)` (used for the `Gres=`
field of a node block). -/
def findAllTyped (l : List Char) : List (List Char × Nat) :=
  findAllFuel matchTypedAt (l.length + 1) l

/-- Attempt of `gres/gpu:([a-zA-Z0-9]+)=(\d+)` at the head of the input. -/
def matchCfgTypedAt (l : List Char) : Option ((List Char × Nat) × List Char) :=
  if startsWith ("gres/gpu:".toList) l then
    let r := l.drop 9
    let ty := r.takeWhile Char.isAlphanum
    match r.dropWhile Char.isAlphanum with
    | '=' :: r3 =>
      let ds := r3.takeWhile Char.isDigit
      if ty.isEmpty || ds.isEmpty then none
      else some ((ty, digitsToNat ds), r3.dropWhile Char.isDigit)
    | _ => none
  else none

/-- `re.findall(r"gres/gpu:([a-zA-Z0-9]+)=(\d+)", l)` (used for the
`CfgTRES=` and `AllocTRES=` captures). -/
def findAllCfgTyped (l : List Char) : List (List Char × Nat) :=
  findAllFuel matchCfgTypedAt (l.length + 1) l

/-- A Python dict over string keys holding values of type `α`:
insertion-ordered association list with unique keys. -/
def alistSet : List (List Char × α) → List Char → α → List (List Char × α)
  | [], k, v => [(k, v)]
  | (k0, v0) :: rest, k, v =>
    if k0 = k then (k0, v) :: rest
    else (k0, v0) :: alistSet rest k v

/-- Python `d.get(k)` on the association-list model of a dict. -/
def alistGet : List (List Char × α) → List Char → Option α
  | [], _ => none
  | (k0, v0) :: rest, k => if k0 = k then some v0 else alistGet rest k

/-! ## Node-descriptor parser (`node_info.parse_node_data`) -/

/-- Attempt of `gpu[^:]*:(\d+)` at the head of the input (the greedy
`[^:]*` cannot cross a colon, so the match is the first colon after
`gpu` followed immediately by at least one digit). -/
def matchGpuAnyColonAt : List Char → Option Nat
  | 'g' :: 'p' :: 'u' :: r =>
    match r.dropWhile (fun c => c != ':') with
    | ':' :: r2 =>
      let ds := r2.takeWhile Char.isDigit
      if ds.isEmpty then none else some (digitsToNat ds)
    | _ => none
  | _ => none

/-- `re.search(r"gpu[^:]*:(\d+)", l)`. -/
def searchGpuAnyColon (l : List Char) : Option Nat :=
  scanFirst matchGpuAnyColonAt l

/-- Attempt of `gpu:(\d+)` at the head of the input. -/
def matchGpuColonDigitsAt : List Char → Option Nat
  | 'g' :: 'p' :: 'u' :: ':' :: r =>
    let ds := r.takeWhile Char.isDigit
    if ds.isEmpty then none else some (digitsToNat ds)
  | _ => none

/-- The lazy part `\S*?gpu:(\d+)`: try `gpu:(\d+)` at the shortest
offset first, advancing only over non-space characters. -/
def gresUsedLazy : List Char → Option Nat
  | [] => none
  | c :: rest =>
    match matchGpuColonDigitsAt (c :: rest) with
    | some n => some n
    | none => if isPySpace c then none else gresUsedLazy rest

/-- `re.search(r"GresUsed=\S*?gpu:(\d+)", data)`. -/
def searchGresUsed (data : List Char) : Option Nat :=
  scanFirst
    (fun l =>
      if startsWith ("GresUsed=".toList) l then gresUsedLazy (l.drop 9) else none)
    data

/-- The `CfgTRES=([^\n]*)` capture of a node block. -/
def cfgTresOf (data : List Char) : Option (List Char) :=
  searchCapStar ("CfgTRES=".toList) (fun c => c != '\n') data

/-- The `AllocTRES=([^\n]*)` capture of a node block. -/
def allocTresOf (data : List Char) : Option (List Char) :=
  searchCapStar ("AllocTRES=".toList) (fun c => c != '\n') data

/-- The `Gres=(\S+)` capture of a node block. -/
def gresFieldOf (data : List Char) : Option (List Char) :=
  searchCap ("Gres=".toList) notSpace data

/-- The untyped `gres/gpu=(\d+)` search inside a TRES capture. -/
def tresUntypedGpu (tres : List Char) : Option Nat :=
  (searchCap ("gres/gpu=".toList) Char.isDigit tres).map digitsToNat

/-- GPU extraction of `parse_node_data` (node_info.py lines 71-124).
Returns `(gpu_total, gpu_alloc, gpu_total_by_type, gpu_alloc_by_type)`:
untyped totals from `CfgTRES`/`AllocTRES`, by-type maps from the typed
sub-tokens, then the `Gres=` fallback for a still-zero total and the
`GresUsed=` fallback for a still-zero allocation. -/
def gpuFields (data : List Char) :
    Nat × Nat × List (List Char × Nat) × List (List Char × Nat) :=
  let cfgPart :=
    match cfgTresOf data with
    | some cfg =>
      ((tresUntypedGpu cfg).getD 0,
       (findAllCfgTyped cfg).foldl (fun mp (tc : List Char × Nat) => alistSet mp tc.1 tc.2) [])
    | none => (0, ([] : List (List Char × Nat)))
  let allocPart :=
    match allocTresOf data with
    | some al =>
      ((tresUntypedGpu al).getD 0,
       (findAllCfgTyped al).foldl (fun mp (tc : List Char × Nat) => alistSet mp tc.1 tc.2) [])
    | none => (0, ([] : List (List Char × Nat)))
  let totPair :=
    if cfgPart.1 = 0 then
      match gresFieldOf data with
      | some gres =>
        let pairs := findAllTyped gres
        let by_type := pairs.foldl (fun mp tc => alistSet mp tc.1 tc.2) cfgPart.2
        let tot := pairs.foldl (fun a tc => a + tc.2) cfgPart.1
        if tot = 0 then ((searchGpuAnyColon gres).getD tot, by_type)
        else (tot, by_type)
      | none => (cfgPart.1, cfgPart.2)
    else (cfgPart.1, cfgPart.2)
  let galloc :=
    if allocPart.1 = 0 then (searchGresUsed data).getD allocPart.1
    else allocPart.1
  (totPair.1, galloc, totPair.2, allocPart.2)

/-- The `gpu_available_details` list (node_info.py lines 126-132): for
each configured type, in listed order, render `type=available` when the
available count `total - allocated` is strictly positive. -/
def availDetails (total_by_type alloc_by_type : List (List Char × Nat)) :
    List (List Char) :=
  total_by_type.filterMap fun tc =>
    let alloc := (alistGet alloc_by_type tc.1).getD 0
    if alloc < tc.2 then some (tc.1 ++ '=' :: natToChars (tc.2 - alloc)) else none

/-- Python `float()` on the simple unsigned decimal forms that SLURM's
`CPULoad` field uses (`digits`, `digits.digits`, `.digits`, `digits.`);
other inputs are modelled as raising `ValueError`. -/
def pyFloat (l : List Char) : Option ℚ :=
  match pySplit '.' l with
  | [a] =>
    if a.isEmpty then none
    else if a.all Char.isDigit then some (digitsToNat a) else none
  | [a, b] =>
    if a.isEmpty && b.isEmpty then none
    else if a.all Char.isDigit && b.all Char.isDigit then
      some ((digitsToNat a : ℚ) + (digitsToNat b : ℚ) / (10 : ℚ) ^ b.length)
    else none
  | _ => none

/-- A simple digit-run field: `re.search(lit + r"(\d+)", data)` parsed to
a number, defaulting to 0 when absent. -/
def natField (lit : List Char) (data : List Char) : Nat :=
  match searchCap lit Char.isDigit data with
  | some ds => digitsToNat ds
  | none => 0

/-- The record produced by `parse_node_data` for one node block, with
the numeric quantities and raw token strings the dict carries (the
purely presentational f-string fields are represented by their
components). -/
structure NodeRecord where
  nodeName : List Char
  state : List Char
  partitions : List Char
  cpu_alloc : Nat
  cpu_total : Nat
  cpu_load : ℚ
  real_memory : Nat
  alloc_memory : Nat
  memory_usage_percentage : ℚ
  cpu_usage_percentage : ℚ
  gpu_alloc : Nat
  gpu_total : Nat
  gpu_total_by_type : List (List Char × Nat)
  gpu_alloc_by_type : List (List Char × Nat)
  gpu_available_details : List (List Char)
deriving DecidableEq, Repr

/-- The `CPULoad` extraction of `parse_node_data`: the `float()` call on
the captured token, 0.0 when the token is absent, `Except.error` when
`float()` raises. -/
def cpuLoadOf (data : List Char) : Except Unit ℚ :=
  match searchCap ("CPULoad=".toList) notSpace data with
  | none => Except.ok 0
  | some s =>
    match pyFloat s with
    | some q => Except.ok q
    | none => Except.error ()

/-- `parse_node_data` (node_info.py lines 45-155): `Except.ok none` when
no `NodeName=` token matches ("not a node block"), `Except.error ()`
when `float()` raises on a malformed `CPULoad` value, and otherwise the
parsed record.  Missing numeric fields default to 0, missing string
fields to `"UNKNOWN"`. -/
def parseNodeData (data : List Char) : Except Unit (Option NodeRecord) :=
  match searchCap ("NodeName=".toList) notSpace data with
  | none => Except.ok none
  | some node_name =>
    match cpuLoadOf data with
    | Except.error e => Except.error e
    | Except.ok cpu_load =>
      let real_memory := natField ("RealMemory=".toList) data
      let alloc_memory := natField ("AllocMem=".toList) data
      let memory_usage_percentage : ℚ :=
        if real_memory > 0 then ((alloc_memory : ℚ) / (real_memory : ℚ)) * 100 else 0
      let cpu_alloc := natField ("CPUAlloc=".toList) data
      let cpu_total := natField ("CPUTot=".toList) data
      let cpu_usage_percentage : ℚ :=
        if cpu_total > 0 then ((cpu_alloc : ℚ) / (cpu_total : ℚ)) * 100 else 0
      let g := gpuFields data
      let state := (searchCap ("State=".toList) notSpace data).getD ("UNKNOWN".toList)
      let partitions :=
        (searchCap ("Partitions=".toList) notSpace data).getD ("UNKNOWN".toList)
      Except.ok (some
        { nodeName := node_name
          state := state
          partitions := partitions
          cpu_alloc := cpu_alloc
          cpu_total := cpu_total
          cpu_load := cpu_load
          real_memory := real_memory
          alloc_memory := alloc_memory
          memory_usage_percentage := memory_usage_percentage
          cpu_usage_percentage := cpu_usage_percentage
          gpu_alloc := g.2.1
          gpu_total := g.1
          gpu_total_by_type := g.2.2.1
          gpu_alloc_by_type := g.2.2.2
          gpu_available_details := availDetails g.2.2.1 g.2.2.2 })

/-- The caller-level state filter of `get_node_info`: a node is excluded
when its state, lowercased, contains `"drain"` or `"down"`. -/
def stateExcluded (st : List Char) : Bool :=
  containsSeq ("drain".toList) (st.map Char.toLower) ||
  containsSeq ("down".toList) (st.map Char.toLower)

/-- The block loop of `get_node_info` (node_info.py lines 35-42): parse
each block, silently skip non-node blocks, and drop drained/down nodes
unless `include_down` is set. -/
def processBlocks (include_down : Bool) : List (List Char) → Except Unit (List NodeRecord)
  | [] => Except.ok []
  | b :: rest =>
    match parseNodeData b with
    | Except.error e => Except.error e
    | Except.ok r =>
      match processBlocks include_down rest with
      | Except.error e => Except.error e
      | Except.ok tail =>
        match r with
        | none => Except.ok tail
        | some node =>
          if !include_down && stateExcluded node.state then Except.ok tail
          else Except.ok (node :: tail)

/-! ## Slot rendering (`node_info.display_nodes`) -/

/-- `max_slots`: the maximum of every displayed node's GPU total and the
configured minimum slot count. -/
def maxSlots (nodes : List NodeRecord) (slots : Nat) : Nat :=
  (nodes.map (fun n => n.gpu_total) ++ [slots]).foldl max 0

/-- The `slot_assignments` list (node_info.py lines 315-320): for each
allocated type, in listed order, `count` copies of the first four
characters of the type name. -/
def slotAssignments (byType : List (List Char × Nat)) : List (List Char) :=
  byType.foldl (fun acc tc => acc ++ List.replicate tc.2 (tc.1.take 4)) []

/-- The per-node GPU slot row of `display_nodes` (node_info.py lines
309-347): with per-type allocation data, slot `i` shows the `i`-th
assignment abbreviation and is otherwise blank; without it, the first
`min(alloc, total)` slots show `#`.  The row is padded and truncated to
exactly `max_slots` cells. -/
def buildGpuSlots (node : NodeRecord) (max_slots : Nat) : List (List Char) :=
  let gpu_slots :=
    if !node.gpu_alloc_by_type.isEmpty then
      let assigns := slotAssignments node.gpu_alloc_by_type
      (List.range max_slots).map fun i => assigns.getD i []
    else
      let used := min node.gpu_alloc node.gpu_total
      (List.range max_slots).map fun i => if i < used then ['#'] else []
  let padded := gpu_slots ++ List.replicate (max_slots - gpu_slots.length) []
  padded.take max_slots

/-- Number of slots of a node's row rendered as used (non-blank). -/
def usedSlotCount (node : NodeRecord) (max_slots : Nat) : Nat :=
  ((buildGpuSlots node max_slots).filter (fun s => !s.isEmpty)).length

/-! ## Partition resources (`job_runner.parse_gpus` and
`job_runner.query_partition_resources`) -/

/-- Attempt of `(\d+)` at the head of the input. -/
def matchDigitsAt (l : List Char) : Option (Nat × List Char) :=
  let ds := l.takeWhile Char.isDigit
  if ds.isEmpty then none else some (digitsToNat ds, l.dropWhile Char.isDigit)

/-- `re.findall(r"(\d+)", l)`: the values of all maximal digit runs. -/
def findAllNums (l : List Char) : List Nat :=
  findAllFuel matchDigitsAt (l.length + 1) l

/-- The entry loop of `parse_gpus`: the first comma-entry that mentions
`gpu` and contains a number decides the count (clamped to at least 1). -/
def parseGpusEntries : List (List Char) → Nat
  | [] => 1
  | e :: rest =>
    if containsSeq gpuWord e then
      match (findAllNums e).getLast? with
      | some cnt => max 1 cnt
      | none => parseGpusEntries rest
    else parseGpusEntries rest

/-- `parse_gpus` (job_runner.py lines 147-161). -/
def parse_gpus (gres_field : List Char) : Nat :=
  if gres_field.isEmpty then 1
  else parseGpusEntries (pySplit ',' gres_field)

/-- Python `int()` with an optional leading minus sign (as used on the
sinfo CPU field whose pieces may be signed); other failures are `none`
and fall to the `except ValueError` branch. -/
def pyIntS (l : List Char) : Option Int :=
  match l with
  | '-' :: rest => (pyInt rest).map (fun n => -(n : Int))
  | _ => (pyInt l).map (fun n => (n : Int))

/-- Round-half-even of the exact quotient `num / den` (`den` positive),
modelling Python's rounding of the one-decimal float format on the
memory sizes used here. -/
def roundHalfEvenDiv (num den : Nat) : Nat :=
  let q := num / den
  let r := num % den
  if 2 * r < den then q else if den < 2 * r then q + 1 else if q % 2 = 0 then q else q + 1

/-- Rendering of `num / den` with one decimal digit, modelling the
Python format spec `.1f` on the nonnegative values used here. -/
def formatOneDecimalDiv (num den : Nat) : List Char :=
  let t := roundHalfEvenDiv (num * 10) den
  natToChars (t / 10) ++ '.' :: natToChars (t % 10)

/-- `format_memory` (job_runner.py lines 137-144). -/
def format_memory (memory_mb : Nat) : List Char :=
  if memory_mb = 0 then "50G".toList
  else if memory_mb % 1024 = 0 then natToChars (memory_mb / 1024) ++ ['G']
  else if memory_mb > 1024 then formatOneDecimalDiv memory_mb 1024 ++ ['G']
  else natToChars memory_mb ++ ['M']

/-- The `PartitionInfo` record of job_runner.py. -/
structure PartitionInfo where
  name : List Char
  cpus_per_node : Int
  memory_mb : Nat
  memory_display : List Char
  gpus : Nat
  max_time : Option (List Char)
deriving DecidableEq, Repr

/-- Processing of one sinfo line by `query_partition_resources`
(job_runner.py lines 230-262). -/
def processPartLine (ps : List (List Char × PartitionInfo)) (line : List Char) :
    List (List Char × PartitionInfo) :=
  if (pyStrip line).isEmpty then ps
  else
    let parts := pySplit '|' line
    if parts.length < 5 then ps
    else
      let partition_name := pyStrip ((pySplit '*' (parts.getD 0 [])).getD 0 [])
      if partition_name.isEmpty then ps
      else
        let cpu_pieces := (pySplit '/' (parts.getD 1 [])).filter (fun p => !p.isEmpty)
        let cpus_total : Int :=
          match cpu_pieces.getLast? with
          | some lastPiece =>
            match pyIntS lastPiece with
            | some n => n
            | none => 1
          | none => 1
        let memory_digits := (parts.getD 2 []).filter Char.isDigit
        let memory_mb := if memory_digits.isEmpty then 0 else digitsToNat memory_digits
        let gpus := parse_gpus (parts.getD 3 [])
        let info : PartitionInfo :=
          { name := partition_name
            cpus_per_node := cpus_total
            memory_mb := memory_mb
            memory_display := format_memory memory_mb
            gpus := gpus
            max_time :=
              let mt := pyStrip (parts.getD 4 [])
              if mt.isEmpty then none else some mt }
        match alistGet ps partition_name with
        | none => alistSet ps partition_name info
        | some existing =>
          if cpus_total > existing.cpus_per_node then alistSet ps partition_name info
          else ps

/-- The pure core of `query_partition_resources`: from the stripped text
output of sinfo to the partition dict. -/
def queryPartitionResourcesPure (raw : List Char) :
    List (List Char × PartitionInfo) :=
  (pySplit '\n' (pyStrip raw)).foldl processPartLine []

/-! ## Claim-side definitions

Structural descriptions, following the specification's words, that the
claim theorems compare with the code-translated definitions above. -/

/-- Sequential application of `(node, claim)` appends to the mapping. -/
def applyClaims (m : JobMapping) (pairs : List (List Char × JobClaim)) : JobMapping :=
  pairs.foldl (fun acc pc => dictAppend acc pc.1 pc.2) m

/-- The per-node claims the distribution rule predicts for one job: node
`i` of the list receives a base of `g / n` GPUs plus one extra GPU when
`i < g % n`. -/
def jobClaimPairs (jid ty : List Char) (g : Nat) (nodes : List (List Char)) :
    List (List Char × JobClaim) :=
  ((List.range nodes.length).zip nodes).map fun p =>
    (p.2, ⟨jid, ty, g / nodes.length + if p.1 < g % nodes.length then 1 else 0⟩)

/-- Total GPU count recorded in a mapping for one job id. -/
def jobGpuSum (jid : List Char) (m : JobMapping) : Nat :=
  (m.map fun kv =>
    ((kv.2.filter fun c => c.job_id == jid).map JobClaim.gpu_count).sum).sum

/-- A nonempty all-digit string. -/
def isDigits (l : List Char) : Bool := !l.isEmpty && l.all Char.isDigit

/-- One comma-piece of a bracketed node-range specification: a single
zero-padded number, or a hyphenated `start`-`end` range. -/
inductive NodeSpecPart where
  | single (num : List Char)
  | range (s e : List Char)
deriving DecidableEq, Repr

/-- Well-formedness of a specification piece: the numbers are nonempty
digit strings. -/
def NodeSpecPart.wfb : NodeSpecPart → Bool
  | .single num => isDigits num
  | .range s e => isDigits s && isDigits e

/-- Text of one specification piece. -/
def NodeSpecPart.render : NodeSpecPart → List Char
  | .single num => num
  | .range s e => s ++ '-' :: e

/-- The names the specification predicts for one piece: one per number,
each the base name followed by the number zero-padded to the width of
the range's written start. -/
def NodeSpecPart.names (base : List Char) : NodeSpecPart → List (List Char)
  | .single num => [base ++ num]
  | .range s e =>
    (List.range' (digitsToNat s) (digitsToNat e + 1 - digitsToNat s)).map fun i =>
      base ++ pyZfill s.length (natToChars i)

/-- Comma-joined text of the specification pieces. -/
def renderParts : List NodeSpecPart → List Char
  | [] => []
  | [p] => p.render
  | p :: rest => p.render ++ ',' :: renderParts rest

/-- The full bracketed node-list expression `base[spec]`. -/
def renderNodeExpr (base : List Char) (parts : List NodeSpecPart) : List Char :=
  base ++ '[' :: renderParts parts ++ [']']

/-- Aggregate GPU total from the `Gres=` field: the typed
`gpu:type:count` entries summed, falling back to the bare
`gpu...:count` pattern, and 0 when the field is absent. -/
def specGresTotal (data : List Char) : Nat :=
  match gresFieldOf data with
  | some gres =>
    let s := ((findAllTyped gres).map Prod.snd).sum
    if s = 0 then (searchGpuAnyColon gres).getD 0 else s
  | none => 0

/-- The aggregate-GPU-total cascade: the untyped `gres/gpu=N` sub-token
of `CfgTRES` when present and nonzero, otherwise the `Gres=` field. -/
def specGpuTotal (data : List Char) : Nat :=
  match (cfgTresOf data).bind tresUntypedGpu with
  | some n => if n = 0 then specGresTotal data else n
  | none => specGresTotal data

/-- The aggregate-GPU-allocation cascade: the untyped `gres/gpu=N`
sub-token of `AllocTRES` when present and nonzero, otherwise the
`GresUsed=` pattern, defaulting to 0. -/
def specGpuAlloc (data : List Char) : Nat :=
  match (allocTresOf data).bind tresUntypedGpu with
  | some n => if n = 0 then (searchGresUsed data).getD 0 else n
  | none => (searchGresUsed data).getD 0

/-- The node-to-claims mapping the reconciler builds for the squeue line
`7|n1,n2|gpu:1` (one GPU spread over two nodes). -/
def oneGpuTwoNodesMap : JobMapping :=
  [(['n', '1'], [⟨['7'], gpuWord, 1⟩]), (['n', '2'], [⟨['7'], gpuWord, 0⟩])]

/-- A node block whose configured TRES carries only a typed GPU
sub-token and no untyped `gres/gpu=N` sub-token. -/
def typedOnlyBlock : List Char := ("NodeName=x CfgTRES=gres/gpu:3090=2").toList

/-- A display record with inconsistent source data (`allocated` above
`total`) and with per-type allocation detail. -/
def inconsistentNode : NodeRecord :=
  { nodeName := ['n'], state := [], partitions := [], cpu_alloc := 0, cpu_total := 0,
    cpu_load := 0, real_memory := 0, alloc_memory := 0, memory_usage_percentage := 0,
    cpu_usage_percentage := 0, gpu_alloc := 10, gpu_total := 8,
    gpu_total_by_type := [], gpu_alloc_by_type := [(('a' :: '1' :: '0' :: '0' :: []), 10)],
    gpu_available_details := [] }

/-- A display record with inconsistent source data and no per-type
allocation detail. -/
def inconsistentPlainNode : NodeRecord :=
  { inconsistentNode with gpu_alloc_by_type := [] }

/-- A node block with no `NodeName=` token. -/
def separatorBlock : List Char := ("   Arch=x86_64 State=DOWN").toList

/-- A node block with a zero `RealMemory=` token. -/
def zeroMemoryBlock : List Char := ("NodeName=n RealMemory=0").toList

/-- The record `parse_node_data` produces for `zeroMemoryBlock`. -/
def zeroMemoryRecord : NodeRecord :=
  { nodeName := ['n'], state := ("UNKNOWN").toList, partitions := ("UNKNOWN").toList,
    cpu_alloc := 0, cpu_total := 0, cpu_load := 0, real_memory := 0, alloc_memory := 0,
    memory_usage_percentage := 0, cpu_usage_percentage := 0, gpu_alloc := 0,
    gpu_total := 0, gpu_total_by_type := [], gpu_alloc_by_type := [],
    gpu_available_details := [] }

/-- A sinfo line for a partition that reports no GPUs. -/
def nullGresLine : List Char := ("cpu|64|64000|(null)|infinite").toList

/-- The partition record built from `nullGresLine`. -/
def nullGresInfo : PartitionInfo :=
  { name := ['c', 'p', 'u'], cpus_per_node := 64, memory_mb := 64000,
    memory_display := ['6', '2', '.', '5', 'G'], gpus := 1,
    max_time := some (("infinite").toList) }

/-! ## Helper lemmas and claim theorems -/

theorem recordClaims_eq_applyClaims (jid ty : List Char) (base rem : Nat) :
    ∀ (nodes : List (List Char)) (m : JobMapping) (idx : Nat),
      recordClaims jid ty base rem m idx nodes =
        applyClaims m (((List.range' idx nodes.length).zip nodes).map fun p =>
          (p.2, ⟨jid, ty, base + if p.1 < rem then 1 else 0⟩))
  | [], m, idx => rfl
  | node :: rest, m, idx => by
    rw [recordClaims, recordClaims_eq_applyClaims jid ty base rem rest _ (idx + 1)]
    simp only [List.length_cons, List.range'_succ, List.zip_cons_cons, List.map_cons]
    rfl

theorem dictAppend_jobGpuSum (jid : List Char) (c : JobClaim) :
    ∀ (m : JobMapping) (node : List Char),
      jobGpuSum jid (dictAppend m node c) =
        jobGpuSum jid m + (if c.job_id == jid then c.gpu_count else 0)
  | [], node => by
    simp only [dictAppend, jobGpuSum, List.map_cons, List.map_nil, List.sum_cons,
      List.sum_nil, List.filter]
    cases h : c.job_id == jid
    · simp
    · simp
  | (k, v) :: rest, node => by
    by_cases hk : k = node
    · simp only [dictAppend, if_pos hk, jobGpuSum, List.map_cons, List.sum_cons,
        List.filter_append, List.map_append, List.sum_append, List.filter]
      cases h : c.job_id == jid
      · simp
      · simp
        ring
    · simp only [dictAppend, if_neg hk, jobGpuSum, List.map_cons, List.sum_cons]
      have ih := dictAppend_jobGpuSum jid c rest node
      simp only [jobGpuSum] at ih
      omega

theorem applyClaims_jobGpuSum (jid : List Char) :
    ∀ (pairs : List (List Char × JobClaim)) (m : JobMapping),
      jobGpuSum jid (applyClaims m pairs) =
        jobGpuSum jid m +
          (pairs.map fun pc => if pc.2.job_id == jid then pc.2.gpu_count else 0).sum
  | [], m => by simp [applyClaims]
  | pc :: rest, m => by
    simp only [applyClaims, List.foldl_cons, List.map_cons, List.sum_cons]
    have ih := applyClaims_jobGpuSum jid rest (dictAppend m pc.1 pc.2)
    simp only [applyClaims] at ih
    rw [ih, dictAppend_jobGpuSum]
    omega

theorem pairs_filter_sum (jid ty : List Char) (base r : Nat) :
    ∀ (nodes : List (List Char)) (idx : Nat),
      ((((List.range' idx nodes.length).zip nodes).map fun p =>
          (p.2, (⟨jid, ty, base + if p.1 < r then 1 else 0⟩ : JobClaim))).map
        fun pc => if pc.2.job_id == jid then pc.2.gpu_count else 0).sum =
      ((List.range' idx nodes.length).map fun i =>
        base + if i < r then 1 else 0).sum
  | [], idx => rfl
  | node :: rest, idx => by
    simp only [List.length_cons, List.range'_succ, List.zip_cons_cons, List.map_cons,
      List.sum_cons, pairs_filter_sum jid ty base r rest (idx + 1)]
    simp [beq_self_eq_true]

theorem range_base_ite_sum : ∀ (n base r : Nat),
    ((List.range n).map fun i => base + if i < r then 1 else 0).sum =
      n * base + min r n
  | 0, base, r => by simp
  | n + 1, base, r => by
    rw [List.range_succ, List.map_append, List.sum_append,
      range_base_ite_sum n base r]
    simp only [List.map_cons, List.map_nil, List.sum_cons, List.sum_nil]
    rw [Nat.succ_mul]
    by_cases h : n < r
    · rw [if_pos h]; omega
    · rw [if_neg h]; omega

/-- Claim C1: for a running job whose total GPU count is distributed over
a nonempty node list, the reconciler appends, in listed order, a claim of
`floor(G/n)` GPUs per node plus one extra for each of the first `G mod n`
nodes, and the per-node counts recorded for that job sum to exactly `G`. -/
theorem c1_gpu_distribution (m : JobMapping) (jid ty : List Char) (g : Nat)
    (nodes : List (List Char)) (h : nodes ≠ []) :
    distributeJob m jid ty g nodes = applyClaims m (jobClaimPairs jid ty g nodes) ∧
    jobGpuSum jid (distributeJob m jid ty g nodes) = jobGpuSum jid m + g := by
  have hne : nodes.isEmpty = false := by
    cases nodes with
    | nil => exact absurd rfl h
    | cons a l => rfl
  have hpos : 0 < nodes.length := List.length_pos.mpr h
  have hstruct : distributeJob m jid ty g nodes =
      applyClaims m (jobClaimPairs jid ty g nodes) := by
    rw [distributeJob]
    simp only [hne, Bool.false_eq_true, if_false]
    rw [recordClaims_eq_applyClaims, jobClaimPairs, List.range_eq_range']
  refine ⟨hstruct, ?_⟩
  rw [hstruct, applyClaims_jobGpuSum]
  rw [jobClaimPairs, List.range_eq_range', pairs_filter_sum, ← List.range_eq_range',
    range_base_ite_sum]
  have hlt : g % nodes.length < nodes.length := Nat.mod_lt _ hpos
  have := Nat.div_add_mod g nodes.length
  omega

/-- Witness for claim C1: 5 GPUs over nodes `[a, b, c]` are recorded as
2, 2 and 1, summing to 5. -/
theorem c1_gpu_distribution_witness :
    distributeJob [] ['7'] gpuWord 5 [['a'], ['b'], ['c']] =
      [(['a'], [⟨['7'], gpuWord, 2⟩]), (['b'], [⟨['7'], gpuWord, 2⟩]),
        (['c'], [⟨['7'], gpuWord, 1⟩])] ∧
    jobGpuSum ['7'] (distributeJob [] ['7'] gpuWord 5 [['a'], ['b'], ['c']]) =
      jobGpuSum ['7'] [] + 5 := by
  refine ⟨by decide, ?_⟩
  exact (c1_gpu_distribution [] ['7'] gpuWord 5 [['a'], ['b'], ['c']] (by decide)).2


theorem jobClaimPairs_length (jid ty : List Char) (g : Nat) (nodes : List (List Char)) :
    (jobClaimPairs jid ty g nodes).length = nodes.length := by
  simp [jobClaimPairs]

/-- Claim C4 (amended): the reconciler records one claim for every node
of the job's list, in listed order, with count `floor(G/n)` plus the
remainder extra; a recorded count is zero exactly when `G < n` and the
node's index is at least `G mod n` (zero claims are recorded, not
dropped — only whole jobs with total zero are skipped). -/
theorem c4_zero_claims_recorded (m : JobMapping) (jid ty : List Char) (g : Nat)
    (nodes : List (List Char)) (h : nodes ≠ []) (i : Nat) (hi : i < nodes.length) :
    distributeJob m jid ty g nodes = applyClaims m (jobClaimPairs jid ty g nodes) ∧
    (((jobClaimPairs jid ty g nodes).get
        ⟨i, by rw [jobClaimPairs_length]; exact hi⟩).2.gpu_count = 0 ↔
      g < nodes.length ∧ g % nodes.length ≤ i) := by
  have hne : nodes.isEmpty = false := by
    cases nodes with
    | nil => exact absurd rfl h
    | cons a l => rfl
  have hpos : 0 < nodes.length := List.length_pos.mpr h
  constructor
  · rw [distributeJob]
    simp only [hne, Bool.false_eq_true, if_false]
    rw [recordClaims_eq_applyClaims, jobClaimPairs, List.range_eq_range']
  · have hget : ((jobClaimPairs jid ty g nodes).get
        ⟨i, by rw [jobClaimPairs_length]; exact hi⟩).2.gpu_count =
        g / nodes.length + if i < g % nodes.length then 1 else 0 := by
      simp [jobClaimPairs, List.get_eq_getElem, List.getElem_zip, List.getElem_range]
    rw [hget]
    have hdiv := Nat.div_eq_zero_iff (a := g) hpos
    constructor
    · intro h0
      by_cases hc : i < g % nodes.length
      · rw [if_pos hc] at h0
        exact absurd h0 (Nat.succ_ne_zero _)
      · rw [if_neg hc] at h0
        have hz : g / nodes.length = 0 := by simpa using h0
        exact ⟨hdiv.mp hz, by omega⟩
    · rintro ⟨hlt, hle⟩
      have h0 : g / nodes.length = 0 := hdiv.mpr hlt
      rw [if_neg (by omega)]
      simp [h0]

/-- Witness for claim C4 (amended): one GPU over two nodes records a
zero-count claim at index 1. -/
theorem c4_zero_claims_recorded_witness :
    distributeJob [] ['7'] gpuWord 1 [['n', '1'], ['n', '2']] =
      applyClaims [] (jobClaimPairs ['7'] gpuWord 1 [['n', '1'], ['n', '2']]) ∧
    ((jobClaimPairs ['7'] gpuWord 1 [['n', '1'], ['n', '2']]).get
        ⟨1, by decide⟩).2.gpu_count = 0 := by
  have hth := c4_zero_claims_recorded [] ['7'] gpuWord 1 [['n', '1'], ['n', '2']] (by decide) 1 (by decide)
  exact ⟨hth.1, hth.2.mpr (by decide)⟩

/-- Counterexample for claim C4: one GPU over two nodes records a claim
with `gpu_count = 0` for the second node — zero per-node claims are not
dropped. -/
theorem c4_zero_claim_counterexample :
    getJobGpuMappingPure (("7|n1,n2|gpu:1").toList) = some oneGpuTwoNodesMap ∧
    JobClaim.mk ['7'] gpuWord 0 ∈ (oneGpuTwoNodesMap.map Prod.snd).flatten := by
  constructor
  · decide
  · decide

theorem pySplit_no_sep (sep : Char) : ∀ l, sep ∉ l → pySplit sep l = [l]
  | [], _ => rfl
  | c :: rest, h => by
    simp only [List.mem_cons, not_or] at h
    rw [pySplit, if_neg (fun e => h.1 e.symm),
      pySplit_no_sep sep rest h.2]

/-- Claim C7 (amended): a node-list expression containing neither a
bracket nor a comma is treated as a single literal node name: the job's
whole GPU count is appended under exactly the stripped expression. -/
theorem c7_literal_single_name (m : JobMapping) (jid nl gres : List Char)
    (h1 : '[' ∉ nl) (h2 : ',' ∉ nl) (h3 : (parseGres gres).1 ≠ 0) :
    handleJob m jid nl gres =
      some (dictAppend m (pyStrip nl) ⟨jid, (parseGres gres).2, (parseGres gres).1⟩) := by
  rw [handleJob]
  simp only [if_neg h3]
  have hcont : nl.contains '[' = false := by
    simp [List.contains, List.elem_eq_mem, h1]
  rw [parseNodes, if_neg (by rw [hcont]; exact Bool.false_ne_true)]
  rw [pySplit_no_sep ',' nl h2]
  simp only [List.map_cons, List.map_nil]
  rw [distributeJob]
  simp only [List.isEmpty_cons, Bool.false_eq_true, if_false, List.length_cons,
    List.length_nil, Nat.zero_add, Nat.div_one, Nat.mod_one]
  rw [recordClaims, recordClaims]
  simp

/-- Witness for claim C7 (amended): a job on the literal node `n42`
with `gpu:2` is recorded under exactly `n42` with count 2. -/
theorem c7_literal_single_name_witness :
    handleJob [] ['9'] (("n42").toList) (("gpu:2").toList) =
      some [(("n42").toList, [⟨['9'], gpuWord, 2⟩])] := by
  have hth := c7_literal_single_name [] ['9'] (("n42").toList) (("gpu:2").toList)
    (by decide) (by decide) (by decide)
  rw [hth]
  decide

/-- Counterexample for claim C7: a job with 2 GPUs on
`gpu-node[01-02]` — a bracketed expression whose prefix is not purely
alphabetic — appears nowhere in the mapping instead of under the
literal expression. -/
theorem c7_bracket_drop_counterexample :
    (parseGres (("gpu:2").toList)).1 = 2 ∧
    getJobGpuMappingPure (("123|gpu-node[01-02]|gpu:2").toList) = some [] := by
  constructor
  · decide
  · decide


theorem findAllFuel_typed_head : ∀ (n : Nat) (l : List Char), l.length < n →
    (findAllFuel matchTypedAt n l).head? = searchTyped l
  | 0, l, h => absurd h (by omega)
  | n + 1, [], _ => rfl
  | n + 1, c :: rest, h => by
    rw [findAllFuel]
    cases hm : matchTypedAt (c :: rest) with
    | some ar =>
      rw [searchTyped, hm]
      rfl
    | none =>
      rw [searchTyped, hm]
      have hr : rest.length < n := by
        simp only [List.length_cons] at h
        omega
      simpa using findAllFuel_typed_head n rest hr

/-- Claim C3 (amended): the reconciler's resolved GPU count for a job
equals the count of the first typed `gpu:type:count` occurrence in its
generic-resource expression; occurrences are not summed. -/
theorem c3_first_typed_match (gres ty : List Char) (c : Nat) (rest : List (List Char × Nat))
    (h : findAllTyped gres = (ty, c) :: rest) :
    parseGres gres = (c, ty) := by
  have hh : (findAllTyped gres).head? = some (ty, c) := by rw [h]; rfl
  rw [findAllTyped, findAllFuel_typed_head (gres.length + 1) gres (by omega)] at hh
  cases hs : searchTyped gres with
  | none => rw [hs] at hh; simp at hh
  | some r =>
    rw [hs] at hh
    obtain rfl : r = (ty, c) := by injection hh
    rw [parseGres, hs]

/-- Witness for claim C3 (amended): `gpu:3090:4` resolves to count 4 of
type `3090`. -/
theorem c3_first_typed_match_witness :
    parseGres (("gpu:3090:4").toList) = (4, ("3090").toList) :=
  c3_first_typed_match (("gpu:3090:4").toList) (("3090").toList) 4 [] (by decide)

/-- Counterexample for claim C3: on a generic-resource expression with
two typed occurrences (counts 2 and 3), the reconciler resolves 2, not
the claimed sum 5 — the typed pattern is searched once, not summed. -/
theorem c3_typed_sum_counterexample :
    parseGres (("gpu:a100:2,gpu:v100:3").toList) = (2, ("a100").toList) ∧
    (findAllTyped (("gpu:a100:2,gpu:v100:3").toList)).map Prod.snd = [2, 3] ∧
    (2 : Nat) ≠ 2 + 3 := by
  refine ⟨by decide, by decide, by decide⟩

theorem containsSeq_false_scan (pat : List Char) (p : Char → Bool) :
    ∀ (data : List Char), containsSeq pat data = false →
      scanFirst (matchCapAt pat p) data = none
  | [], h => by
    rw [containsSeq] at h
    simp [scanFirst, matchCapAt, h]
  | c :: rest, h => by
    rw [containsSeq, Bool.or_eq_false_iff] at h
    rw [scanFirst]
    simp only [matchCapAt, h.1, Bool.false_eq_true, if_false]
    exact containsSeq_false_scan pat p rest h.2

/-- Claim C8: a descriptor block that nowhere contains the `NodeName=`
token parses to "not a node" without raising, and the caller's block
loop silently skips it. -/
theorem c8_no_nodename_token (data : List Char) (inc : Bool)
    (h : containsSeq (("NodeName=").toList) data = false) :
    parseNodeData data = Except.ok none ∧
    processBlocks inc [data] = Except.ok [] := by
  have hs : searchCap (("NodeName=").toList) notSpace data = none :=
    containsSeq_false_scan _ _ data h
  have hp : parseNodeData data = Except.ok none := by
    rw [parseNodeData, hs]
  refine ⟨hp, ?_⟩
  rw [processBlocks, hp]
  rfl

/-- Witness for claim C8: a separator block without `NodeName=` yields
no record and is skipped. -/
theorem c8_no_nodename_token_witness :
    parseNodeData separatorBlock = Except.ok none ∧
    processBlocks false [separatorBlock] = Except.ok [] :=
  c8_no_nodename_token separatorBlock false (by decide)

/-- Claim C9: every successfully parsed node record has memory-usage
percentage exactly 0 when `RealMemory` is 0 or missing (no division is
performed), and `alloc/real*100` when `RealMemory` is positive. -/
theorem c9_memory_percentage (data : List Char) (rec : NodeRecord)
    (h : parseNodeData data = Except.ok (some rec)) :
    (rec.real_memory = 0 → rec.memory_usage_percentage = 0) ∧
    (0 < rec.real_memory →
      rec.memory_usage_percentage =
        (rec.alloc_memory : ℚ) / (rec.real_memory : ℚ) * 100) := by
  rw [parseNodeData] at h
  cases hn : searchCap (("NodeName=").toList) notSpace data with
  | none => rw [hn] at h; simp at h
  | some name =>
    rw [hn] at h
    cases hl : cpuLoadOf data with
    | error e => rw [hl] at h; simp at h
    | ok q =>
      rw [hl] at h
      simp only [Except.ok.injEq, Option.some.injEq] at h
      subst h
      dsimp only
      constructor
      · intro hz
        rw [if_neg (by omega)]
      · intro hpos
        rw [if_pos hpos]

/-- Witness for claim C9: a block with `RealMemory=0` parses with
percentage exactly 0. -/
theorem c9_memory_percentage_witness :
    parseNodeData zeroMemoryBlock = Except.ok (some zeroMemoryRecord) ∧
    zeroMemoryRecord.memory_usage_percentage = 0 := by
  have hp : parseNodeData zeroMemoryBlock = Except.ok (some zeroMemoryRecord) := by
    rfl
  exact ⟨hp, (c9_memory_percentage zeroMemoryBlock zeroMemoryRecord hp).1 (by decide)⟩


theorem parseGpusEntries_ge_one : ∀ es : List (List Char), 1 ≤ parseGpusEntries es
  | [] => le_refl 1
  | e :: rest => by
    rw [parseGpusEntries]
    by_cases hg : containsSeq gpuWord e = true
    · rw [if_pos hg]
      cases hl : (findAllNums e).getLast? with
      | none => exact parseGpusEntries_ge_one rest
      | some cnt => exact Nat.le_max_left 1 cnt
    · rw [if_neg hg]
      exact parseGpusEntries_ge_one rest

theorem parse_gpus_ge_one (s : List Char) : 1 ≤ parse_gpus s := by
  rw [parse_gpus]
  by_cases he : s.isEmpty = true
  · rw [if_pos he]
  · rw [if_neg he]
    exact parseGpusEntries_ge_one _

theorem mem_alistSet {α : Type} (P : List Char × α → Prop) :
    ∀ (ps : List (List Char × α)) (k : List Char) (v : α),
      (∀ e ∈ ps, P e) → P (k, v) → ∀ e ∈ alistSet ps k v, P e
  | [], k, v, _, hkv => by
    intro e he
    rw [alistSet] at he
    simp only [List.mem_singleton] at he
    exact he ▸ hkv
  | (k0, v0) :: rest, k, v, hps, hkv => by
    intro e he
    rw [alistSet] at he
    by_cases hk : k0 = k
    · rw [if_pos hk] at he
      rcases List.mem_cons.mp he with h1 | h2
      · exact h1 ▸ (hk ▸ hkv)
      · exact hps e (List.mem_cons_of_mem _ h2)
    · rw [if_neg hk] at he
      rcases List.mem_cons.mp he with h1 | h2
      · exact h1 ▸ hps (k0, v0) (List.mem_cons_self _ _)
      · exact mem_alistSet P rest k v (fun x hx => hps x (List.mem_cons_of_mem _ hx)) hkv e h2

theorem processPartLine_gpus_ge_one (ps : List (List Char × PartitionInfo))
    (line : List Char) (hps : ∀ e ∈ ps, 1 ≤ e.2.gpus) :
    ∀ e ∈ processPartLine ps line, 1 ≤ e.2.gpus := by
  intro e he
  rw [processPartLine] at he
  dsimp only at he
  split at he
  · exact hps e he
  · split at he
    · exact hps e he
    · split at he
      · exact hps e he
      · split at he
        · exact mem_alistSet _ _ _ _ hps (parse_gpus_ge_one _) e he
        · split at he
          · exact mem_alistSet _ _ _ _ hps (parse_gpus_ge_one _) e he
          · exact hps e he

theorem foldl_processPartLine_ge_one :
    ∀ (lines : List (List Char)) (ps : List (List Char × PartitionInfo)),
      (∀ e ∈ ps, 1 ≤ e.2.gpus) →
      ∀ e ∈ lines.foldl processPartLine ps, 1 ≤ e.2.gpus
  | [], ps, hps => hps
  | line :: rest, ps, hps => by
    rw [List.foldl_cons]
    exact foldl_processPartLine_ge_one rest _ (processPartLine_gpus_ge_one ps line hps)

/-- Claim C10: `parse_gpus` returns at least 1 on every input, and every
partition record produced by the partition-resource query has a GPU
count of at least 1. -/
theorem c10_partition_gpus_ge_one :
    (∀ s : List Char, 1 ≤ parse_gpus s) ∧
    ∀ (raw : List Char) (e : List Char × PartitionInfo),
      e ∈ queryPartitionResourcesPure raw → 1 ≤ e.2.gpus := by
  refine ⟨parse_gpus_ge_one, ?_⟩
  intro raw e he
  rw [queryPartitionResourcesPure] at he
  exact foldl_processPartLine_ge_one _ [] (by intro x hx; cases hx) e he

/-- Witness for claim C10: the `(null)` GRES field parses to 1 and the
partition built from a GPU-less sinfo line has GPU count 1. -/
theorem c10_partition_gpus_ge_one_witness :
    1 ≤ parse_gpus (("(null)").toList) ∧ 1 ≤ nullGresInfo.gpus :=
  ⟨c10_partition_gpus_ge_one.1 _,
    c10_partition_gpus_ge_one.2 nullGresLine ((('c' :: 'p' :: 'u' :: []), nullGresInfo))
      (by
        have hq : queryPartitionResourcesPure nullGresLine =
            [(('c' :: 'p' :: 'u' :: []), nullGresInfo)] := by rfl
        rw [hq]
        exact List.mem_singleton.mpr rfl)⟩


theorem hash_slot_count : ∀ (ms used : Nat),
    (((List.range ms).map fun i =>
        if i < used then ['#'] else ([] : List Char)).filter
      fun s => !s.isEmpty).length = min used ms
  | 0, used => by simp
  | ms + 1, used => by
    rw [List.range_succ, List.map_append, List.filter_append, List.length_append,
      hash_slot_count ms used]
    have hsingle : ((([ms]).map fun i =>
        if i < used then ['#'] else ([] : List Char)).filter
          fun s => !s.isEmpty).length = if ms < used then 1 else 0 := by
      by_cases h : ms < used
      · simp [h]
      · simp [h]
    rw [hsingle]
    by_cases h : ms < used
    · rw [if_pos h]
      omega
    · rw [if_neg h]
      omega

/-- Claim C6 (amended): when a node has no per-type allocation data, the
number of slots rendered as used is `min(allocated, total)` capped by
the displayed slot count — inconsistent data is clamped in this path. -/
theorem c6_fallback_clamp (node : NodeRecord) (ms : Nat) (h : node.gpu_alloc_by_type = []) :
    usedSlotCount node ms = min (min node.gpu_alloc node.gpu_total) ms := by
  rw [usedSlotCount, buildGpuSlots, h]
  simp only [List.isEmpty_nil, Bool.not_true, Bool.false_eq_true, if_false]
  set L := (List.range ms).map fun i =>
    if i < min node.gpu_alloc node.gpu_total then ['#'] else ([] : List Char) with hL
  have hlen : L.length = ms := by
    rw [hL]
    simp
  rw [hlen, Nat.sub_self]
  have htake : List.take ms (L ++ List.replicate 0 []) = L := by
    rw [List.replicate_zero, List.append_nil, ← hlen]
    exact List.take_length L
  rw [htake, hL, hash_slot_count]

/-- Witness for claim C6 (amended): a node with allocation 10 and total
8 and no per-type data shows exactly 8 used slots out of 10. -/
theorem c6_fallback_clamp_witness : usedSlotCount inconsistentPlainNode 10 = 8 := by
  have h := c6_fallback_clamp inconsistentPlainNode 10 (by rfl)
  rw [h]
  rfl

/-- Counterexample for claim C6: a node with `gpu_allocated = 10`,
`gpu_total = 8` and per-type allocation data shows 10 used slots when
ten slots are displayed — more than `min(allocated, total)`. -/
theorem c6_clamp_counterexample :
    ¬ (usedSlotCount inconsistentNode (maxSlots [inconsistentNode] 10) ≤
        min inconsistentNode.gpu_alloc inconsistentNode.gpu_total) := by
  decide




theorem foldl_add_snd : ∀ (pairs : List (List Char × Nat)) (a : Nat),
    pairs.foldl (fun acc tc => acc + tc.2) a = a + (pairs.map Prod.snd).sum
  | [], a => by simp
  | tc :: rest, a => by
    rw [List.foldl_cons, foldl_add_snd rest (a + tc.2), List.map_cons, List.sum_cons]
    omega

/-- Claim C5 (amended): the aggregate `gpu_total` equals the untyped
`gres/gpu=N` sub-token of `CfgTRES` when present and nonzero, otherwise
the `Gres=` field cascade (typed entries summed, then the bare pattern),
and `gpu_allocated` equals the untyped sub-token of `AllocTRES` when
present and nonzero, otherwise the `GresUsed=` pattern; neither is ever
summed from the by-type maps. -/
theorem c5_aggregate_cascade (data : List Char) :
    (gpuFields data).1 = specGpuTotal data ∧
    (gpuFields data).2.1 = specGpuAlloc data := by
  constructor
  · rw [gpuFields, specGpuTotal, specGresTotal]
    dsimp only
    cases hc : cfgTresOf data with
    | none =>
      dsimp only [Option.bind]
      cases hg : gresFieldOf data with
      | none => simp
      | some gres =>
        by_cases hs : (List.map Prod.snd (findAllTyped gres)).sum = 0
        · simp [foldl_add_snd, hs]
        · simp [foldl_add_snd, hs]
    | some cfg =>
      dsimp only [Option.bind]
      cases hu : tresUntypedGpu cfg with
      | none =>
        dsimp only [Option.getD]
        cases hg : gresFieldOf data with
        | none => simp
        | some gres =>
          by_cases hs : (List.map Prod.snd (findAllTyped gres)).sum = 0
          · simp [foldl_add_snd, hs]
          · simp [foldl_add_snd, hs]
      | some n =>
        dsimp only [Option.getD]
        by_cases hn : n = 0
        · subst hn
          simp only [if_pos rfl]
          cases hg : gresFieldOf data with
          | none => simp
          | some gres =>
            by_cases hs : (List.map Prod.snd (findAllTyped gres)).sum = 0
            · simp [foldl_add_snd, hs]
            · simp [foldl_add_snd, hs]
        · rw [if_neg hn, if_neg hn]
  · rw [gpuFields, specGpuAlloc]
    dsimp only
    cases ha : allocTresOf data with
    | none =>
      dsimp only [Option.bind]
      simp
    | some al =>
      dsimp only [Option.bind]
      cases hu : tresUntypedGpu al with
      | none => simp
      | some n =>
        dsimp only [Option.getD]
        by_cases hn : n = 0
        · subst hn
          simp
        · rw [if_neg hn, if_neg hn]


/-- Counterexample for claim C5: a block whose `CfgTRES` has only a typed
GPU sub-token gets `gpu_total = 0` although the by-type map sums to 2 —
the aggregate is not derived from the by-type map. -/
theorem c5_bytype_sum_counterexample :
    tresUntypedGpu ((cfgTresOf typedOnlyBlock).getD []) = none ∧
    (gpuFields typedOnlyBlock).2.2.1 = [(("3090").toList, 2)] ∧
    (gpuFields typedOnlyBlock).1 = 0 ∧
    (gpuFields typedOnlyBlock).1 ≠
      ((gpuFields typedOnlyBlock).2.2.1.map Prod.snd).sum := by
  refine ⟨by decide, by decide, by decide, by decide⟩

theorem ne_nil_isEmpty_false {α : Type} (l : List α) (h : l ≠ []) :
    l.isEmpty = false := by
  cases l with
  | nil => exact absurd rfl h
  | cons a t => rfl

theorem isDigits_mem (l : List Char) (h : isDigits l = true) :
    ∀ c ∈ l, c.isDigit = true := by
  rw [isDigits, Bool.and_eq_true] at h
  exact fun c hc => List.all_eq_true.mp h.2 c hc

theorem isDigits_ne_nil (l : List Char) (h : isDigits l = true) : l ≠ [] := by
  rw [isDigits, Bool.and_eq_true] at h
  intro he
  subst he
  simp at h

theorem digits_not_mem (l : List Char) (h : isDigits l = true) (c : Char)
    (hc : c.isDigit = false) : c ∉ l :=
  fun hm => by rw [isDigits_mem l h c hm] at hc; cases hc

theorem digits_contains_false (l : List Char) (h : isDigits l = true) (c : Char)
    (hc : c.isDigit = false) : l.contains c = false := by
  simp [List.contains, List.elem_eq_mem, digits_not_mem l h c hc]

theorem takeWhile_all_append (p : Char → Bool) :
    ∀ (xs : List Char) (y : Char) (ys : List Char),
      (∀ c ∈ xs, p c = true) → p y = false →
      ((xs ++ y :: ys).takeWhile p = xs ∧ (xs ++ y :: ys).dropWhile p = y :: ys)
  | [], y, ys, _, hy => by
    simp [List.takeWhile_cons, List.dropWhile_cons, hy]
  | x :: xs, y, ys, hall, hy => by
    have hx : p x = true := hall x (List.mem_cons_self _ _)
    have ih := takeWhile_all_append p xs y ys
      (fun c hc => hall c (List.mem_cons_of_mem _ hc)) hy
    simp only [List.cons_append, List.takeWhile_cons, List.dropWhile_cons, hx,
      if_true, ih.1, ih.2]
    exact ⟨trivial, trivial⟩

theorem pySplit_append_sep (sep : Char) : ∀ (x r : List Char), sep ∉ x →
    pySplit sep (x ++ sep :: r) = x :: pySplit sep r
  | [], r, _ => by
    simp [pySplit]
  | c :: x, r, h => by
    simp only [List.mem_cons, not_or] at h
    rw [List.cons_append]
    simp only [pySplit, pySplit_append_sep sep x r h.2]
    rw [if_neg (fun e => h.1 (Eq.symm e))]

theorem wfb_single (num : List Char)
    (h : NodeSpecPart.wfb (NodeSpecPart.single num) = true) : isDigits num = true := h

theorem wfb_range (s e : List Char)
    (h : NodeSpecPart.wfb (NodeSpecPart.range s e) = true) :
    isDigits s = true ∧ isDigits e = true := by
  rw [NodeSpecPart.wfb, Bool.and_eq_true] at h
  exact h

theorem render_chars (p : NodeSpecPart) (h : p.wfb = true) :
    ∀ c ∈ p.render, c.isDigit = true ∨ c = '-' := by
  intro c hc
  cases p with
  | single num =>
    rw [NodeSpecPart.render] at hc
    exact Or.inl (isDigits_mem num (wfb_single num h) c hc)
  | range s e =>
    have hw := wfb_range s e h
    rw [NodeSpecPart.render] at hc
    rcases List.mem_append.mp hc with h1 | h2
    · exact Or.inl (isDigits_mem s hw.1 c h1)
    · rcases List.mem_cons.mp h2 with h3 | h4
      · exact Or.inr h3
      · exact Or.inl (isDigits_mem e hw.2 c h4)

theorem renderParts_chars : ∀ (parts : List NodeSpecPart),
    (∀ p ∈ parts, p.wfb = true) →
    ∀ c ∈ renderParts parts, c.isDigit = true ∨ c = '-' ∨ c = ','
  | [], _ => by intro c hc; cases hc
  | [p], h => by
    intro c hc
    rw [renderParts] at hc
    rcases render_chars p (h p (List.mem_singleton_self _)) c hc with h1 | h2
    · exact Or.inl h1
    · exact Or.inr (Or.inl h2)
  | p :: q :: t, h => by
    intro c hc
    rw [show renderParts (p :: q :: t) =
      p.render ++ ',' :: renderParts (q :: t) from rfl] at hc
    rcases List.mem_append.mp hc with h1 | h2
    · rcases render_chars p (h p (List.mem_cons_self _ _)) c h1 with h3 | h4
      · exact Or.inl h3
      · exact Or.inr (Or.inl h4)
    · rcases List.mem_cons.mp h2 with h3 | h4
      · exact Or.inr (Or.inr h3)
      · exact renderParts_chars (q :: t)
          (fun x hx => h x (List.mem_cons_of_mem _ hx)) c h4

theorem render_ne_nil (p : NodeSpecPart) (h : p.wfb = true) : p.render ≠ [] := by
  cases p with
  | single num =>
    rw [NodeSpecPart.render]
    exact isDigits_ne_nil num (wfb_single num h)
  | range s e =>
    rw [NodeSpecPart.render]
    intro he
    exact isDigits_ne_nil s (wfb_range s e h).1 (List.append_eq_nil.mp he).1

theorem renderParts_ne_nil : ∀ (parts : List NodeSpecPart), parts ≠ [] →
    (∀ p ∈ parts, p.wfb = true) → renderParts parts ≠ []
  | [], h, _ => absurd rfl h
  | [p], _, h => by
    rw [renderParts]
    exact render_ne_nil p (h p (List.mem_singleton_self _))
  | p :: q :: t, _, h => by
    rw [show renderParts (p :: q :: t) =
      p.render ++ ',' :: renderParts (q :: t) from rfl]
    intro he
    cases (List.append_eq_nil.mp he).2



theorem render_no_comma (p : NodeSpecPart) (h : p.wfb = true) : ',' ∉ p.render := by
  intro hm
  rcases render_chars p h ',' hm with h1 | h2
  · cases h1
  · cases h2

theorem pySplit_renderParts : ∀ (parts : List NodeSpecPart), parts ≠ [] →
    (∀ p ∈ parts, p.wfb = true) →
    pySplit ',' (renderParts parts) = parts.map NodeSpecPart.render
  | [], h, _ => absurd rfl h
  | [p], _, h => by
    rw [renderParts, List.map_singleton]
    exact pySplit_no_sep ',' _ (render_no_comma p (h p (List.mem_singleton_self _)))
  | p :: q :: t, _, h => by
    rw [show renderParts (p :: q :: t) =
      p.render ++ ',' :: renderParts (q :: t) from rfl]
    rw [pySplit_append_sep ',' _ _ (render_no_comma p (h p (List.mem_cons_self _ _)))]
    rw [pySplit_renderParts (q :: t) (by intro he; cases he)
      (fun x hx => h x (List.mem_cons_of_mem _ hx))]
    rfl

theorem pyInt_digits (l : List Char) (h : isDigits l = true) :
    pyInt l = some (digitsToNat l) := by
  rw [isDigits, Bool.and_eq_true] at h
  have h1 : l.isEmpty = false := by
    rw [Bool.not_eq_true'] at h
    exact h.1
  rw [pyInt, h1]
  simp [h.2]

theorem contains_of_mem (l : List Char) (c : Char) (h : c ∈ l) :
    l.contains c = true := by
  simp [List.contains, List.elem_eq_mem, h]

theorem expandPart_render (base : List Char) (p : NodeSpecPart) (h : p.wfb = true) :
    expandPart base p.render = some (p.names base) := by
  cases p with
  | single num =>
    rw [NodeSpecPart.render, NodeSpecPart.names, expandPart]
    rw [digits_contains_false num (wfb_single num h) '-' (by decide)]
    rfl
  | range s e =>
    have hw := wfb_range s e h
    rw [NodeSpecPart.render, NodeSpecPart.names, expandPart]
    have hc : (s ++ '-' :: e).contains '-' = true :=
      contains_of_mem _ _ (List.mem_append_right s (List.mem_cons_self _ _))
    rw [hc]
    rw [if_pos rfl]
    rw [pySplit_append_sep '-' s e (digits_not_mem s hw.1 '-' (by decide))]
    rw [pySplit_no_sep '-' e (digits_not_mem e hw.2 '-' (by decide))]
    simp only [pyInt_digits s hw.1, pyInt_digits e hw.2]

theorem expandParts_render (base : List Char) : ∀ (parts : List NodeSpecPart),
    (∀ p ∈ parts, p.wfb = true) →
    expandParts base (parts.map NodeSpecPart.render) =
      some (parts.flatMap (NodeSpecPart.names base))
  | [], _ => rfl
  | p :: rest, h => by
    rw [List.map_cons, List.flatMap_cons]
    rw [expandParts]
    rw [expandPart_render base p (h p (List.mem_cons_self _ _))]
    rw [expandParts_render base rest (fun x hx => h x (List.mem_cons_of_mem _ hx))]
    rfl


theorem matchNodeRange_render (base : List Char) (parts : List NodeSpecPart)
    (hb : base ≠ []) (hbA : ∀ c ∈ base, c.isAlpha = true)
    (hp : parts ≠ []) (hwf : ∀ p ∈ parts, p.wfb = true) :
    matchNodeRange (renderNodeExpr base parts) = some (base, renderParts parts) := by
  rw [renderNodeExpr, matchNodeRange]
  have htk := takeWhile_all_append Char.isAlpha base '['
    (renderParts parts ++ [']']) hbA (by decide)
  rw [show base ++ '[' :: renderParts parts ++ [']'] =
    base ++ '[' :: (renderParts parts ++ [']']) from by simp] at *
  rw [htk.1, htk.2]
  rw [ne_nil_isEmpty_false base hb]
  have hspec := takeWhile_all_append (fun c => c != ']') (renderParts parts) ']' []
    (by
      intro c hc
      rcases renderParts_chars parts hwf c hc with h1 | h2 | h3
      · simp only [bne_iff_ne]
        intro he
        rw [he] at h1
        cases h1
      · rw [h2]; decide
      · rw [h3]; decide)
    (by decide)
  simp only [Bool.false_eq_true, if_false]
  rw [hspec.1, hspec.2]
  rw [ne_nil_isEmpty_false _ (renderParts_ne_nil parts hp hwf)]
  rfl

/-- Claim C2: expanding a bracketed node-list expression whose prefix is
alphabetic and whose specification is a comma-separated list of
zero-padded numbers and hyphenated ranges yields one name per number,
each being the prefix followed by the number zero-padded to the width of
its range's written start. -/
theorem c2_node_range_expansion (base : List Char) (parts : List NodeSpecPart)
    (hb : base ≠ []) (hbA : ∀ c ∈ base, c.isAlpha = true)
    (hp : parts ≠ []) (hwf : ∀ p ∈ parts, p.wfb = true) :
    parseNodes (renderNodeExpr base parts) =
      some (parts.flatMap (NodeSpecPart.names base)) := by
  have hcont : (renderNodeExpr base parts).contains '[' = true := by
    apply contains_of_mem
    rw [renderNodeExpr]
    simp
  rw [parseNodes, hcont, if_pos rfl,
    matchNodeRange_render base parts hb hbA hp hwf]
  rw [show (match some (base, renderParts parts) with
    | some (b, spec) => expandParts b (pySplit ',' spec)
    | none => some ([] : List (List Char))) =
    expandParts base (pySplit ',' (renderParts parts)) from rfl]
  rw [pySplit_renderParts parts hp hwf]
  exact expandParts_render base parts hwf

/-- Witness for claim C2: `hgpn[01-03,05]` expands to exactly
`hgpn01, hgpn02, hgpn03, hgpn05`. -/
theorem c2_node_range_expansion_witness :
    parseNodes (("hgpn[01-03,05]").toList) =
      some [("hgpn01").toList, ("hgpn02").toList, ("hgpn03").toList,
        ("hgpn05").toList] := by
  have h := c2_node_range_expansion (("hgpn").toList)
    [NodeSpecPart.range (("01").toList) (("03").toList),
      NodeSpecPart.single (("05").toList)]
    (by decide) (by decide) (by decide) (by decide)
  have e1 : renderNodeExpr (("hgpn").toList)
      [NodeSpecPart.range (("01").toList) (("03").toList),
        NodeSpecPart.single (("05").toList)] = ("hgpn[01-03,05]").toList := by decide
  rw [e1] at h
  rw [h]
  decide


end WrapSlurm
